import Mathlib

namespace CpuinfoApp

/-!
Shallow embedding of the cpuinfo-app data-collection layer
(src/cpuinfo_app/utils.py and src/cpuinfo_app/providers.py).

External probes are modelled by an explicit environment `Env`: every call
that can raise is an `Except Unit` value, Python floats are modelled as
exact rationals, and dynamically-typed probe results by small sum types.
A Python function that can propagate an exception is embedded as an
`Except Unit`-valued function; `.error ()` is an uncaught exception.
-/

/-- The sentinel constant `UNKNOWN = "N/A"` from utils.py. -/
def UNKNOWN : String := "N/A"

/-- ASCII whitespace, as recognised by Python `str.strip`, `str.split` and `\s`. -/
def isWs (c : Char) : Bool :=
  c == ' ' || c == '\t' || c == '\n' || c == '\r' || c == '\x0b' || c == '\x0c'

/-- Python `str.strip()` on a character list. -/
def pyStrip (l : List Char) : List Char :=
  ((l.dropWhile isWs).reverse.dropWhile isWs).reverse

/-- Python `str.strip()` on a string. -/
def pyStripS (s : String) : String := String.mk (pyStrip s.data)

/-- Python `a or b` for strings (the empty string is falsy). -/
def pyOr (a b : String) : String := if a = "" then b else a

/-- Python `str.lower()` (ASCII range, which covers every use in the source). -/
def pyLowerS (s : String) : String := String.mk (s.data.map Char.toLower)

/-- Helper for `pySplitWs`: accumulate the current (reversed) token while
scanning. -/
def splitWsAux : List Char → List Char → List String
  | [], cur => if cur = [] then [] else [String.mk cur.reverse]
  | c :: rest, cur =>
    if isWs c then
      if cur = [] then splitWsAux rest [] else String.mk cur.reverse :: splitWsAux rest []
    else splitWsAux rest (c :: cur)

/-- Python `str.split()` with no separator: maximal runs of non-whitespace,
so no empty tokens. -/
def pySplitWs (s : String) : List String := splitWsAux s.data []

/-- Decimal digits of `n`, least significant first.  Structured on a fuel
argument so that the kernel can evaluate it; `decDigits` supplies enough fuel. -/
def decDigitsAux : ℕ → ℕ → List ℕ
  | 0, _ => []
  | f + 1, n => if n = 0 then [] else n % 10 :: decDigitsAux f (n / 10)

/-- Decimal digits of `n`, least significant first. -/
def decDigits (n : ℕ) : List ℕ := decDigitsAux (n + 1) n

/-- Value of a little-endian decimal digit list. -/
def ofDec (l : List ℕ) : ℕ := l.foldr (fun d acc => d + 10 * acc) 0

/-- Python `str(n)` for a natural number. -/
def natToDec (n : ℕ) : String :=
  if n = 0 then "0" else String.mk ((decDigits n).map Nat.digitChar).reverse

/-- Numeric value of a decimal digit character. -/
def charVal (c : Char) : ℕ := c.toNat - 48

/-- Numeric value of a big-endian decimal digit string. -/
def digitsToNat (cs : List Char) : ℕ := ofDec (cs.reverse.map charVal)

/-- Parse a nonempty all-digit character list as a natural number. -/
def parseNatChars (cs : List Char) : Option ℕ :=
  if cs = [] then none
  else if cs.all Char.isDigit then some (digitsToNat cs) else none

/-- Python `f"{n:02}"`: zero-pad to two characters. -/
def pad2 (n : ℕ) : String := if n < 10 then "0" ++ natToDec n else natToDec n

/-- Round to the nearest integer, ties to even (Python `round` on exact values). -/
def rhe (x : ℚ) : ℤ :=
  if x - ⌊x⌋ = 1 / 2 then (if Even ⌊x⌋ then ⌊x⌋ else ⌊x⌋ + 1) else round x

/-- Python `round(x, nd)` on rationals. -/
def pyRound (x : ℚ) (nd : ℕ) : ℚ := rhe (x * 10 ^ nd) / 10 ^ nd

/-- Python `int(x)`: truncation toward zero. -/
def pyTrunc (x : ℚ) : ℤ := if x < 0 then ⌈x⌉ else ⌊x⌋

/-- A dynamically-typed argument to the formatters: a number (`int` or
`float`, modelled as an exact rational) or any non-numeric value. -/
inductive PyIn where
  | num (x : ℚ)
  | nonnum
deriving DecidableEq

/-- Python `f"{x:.2f}"` for the nonnegative rationals arising in `format_bytes`. -/
def fmt2 (x : ℚ) : String :=
  let n := (rhe (x * 100)).toNat
  natToDec (n / 100) ++ "." ++ pad2 (n % 100)

/-- The unit list of utils.format_bytes. -/
def fbUnits : List String := ["B", "KB", "MB", "GB", "TB"]

/-- The unit-selection loop of utils.format_bytes. -/
def fbLoop (size : ℚ) : List String → String
  | [] => fmt2 size ++ " PB"
  | u :: us => if size < 1024 then fmt2 size ++ " " ++ u else fbLoop (size / 1024) us

/-- utils.format_bytes. -/
def format_bytes (x : PyIn) : String :=
  match x with
  | .num b => if b < 0 then UNKNOWN else fbLoop b fbUnits
  | .nonnum => UNKNOWN

/-- The divmod chain and rendering of utils.format_duration (day suffix `"д"`
as in the source). -/
def durRender (total : ℕ) : String :=
  let days := total / 86400
  let hours := total % 86400 / 3600
  let minutes := total % 86400 % 3600 / 60
  let secs := total % 86400 % 3600 % 60
  if days > 0 then
    natToDec days ++ "д " ++ pad2 hours ++ ":" ++ pad2 minutes ++ ":" ++ pad2 secs
  else pad2 hours ++ ":" ++ pad2 minutes ++ ":" ++ pad2 secs

/-- utils.format_duration. -/
def format_duration (x : PyIn) : String :=
  match x with
  | .num s => if s < 0 then UNKNOWN else durRender (pyTrunc s).toNat
  | .nonnum => UNKNOWN

/-- utils.safe_call: the wrapped probe's outcome is an `Except` value; a
failure (`.error`) yields the fallback. -/
def safe_call {α : Type} (f : Except Unit α) (default : α) : α :=
  match f with
  | .ok v => v
  | .error _ => default

/-- Parse `HH:MM:SS` back into components (the re-parsing direction of claim C6). -/
def parseHMS (cs : List Char) : Option (ℕ × ℕ × ℕ) :=
  let h1 := cs.takeWhile Char.isDigit
  match cs.dropWhile Char.isDigit with
  | c1 :: r2 =>
    if c1 = ':' then
      let m1 := r2.takeWhile Char.isDigit
      match r2.dropWhile Char.isDigit with
      | c2 :: r4 =>
        if c2 = ':' then
          match parseNatChars h1, parseNatChars m1, parseNatChars r4 with
          | some h, some m, some s => some (h, m, s)
          | _, _, _ => none
        else none
      | _ => none
    else none
  | _ => none

/-- Interpret a duration string without a day prefix. -/
def hmsOnly (cs : List Char) : Option (ℕ × ℕ × ℕ × ℕ) :=
  match parseHMS cs with
  | some (h, m, s) => some (0, h, m, s)
  | none => none

/-- Parse a rendered duration (`"Dд HH:MM:SS"` or `"HH:MM:SS"`) back into
days/hours/minutes/seconds (the re-parsing direction of claim C6). -/
def parseDuration (s : String) : Option (ℕ × ℕ × ℕ × ℕ) :=
  let cs := s.data
  let ds := cs.takeWhile Char.isDigit
  match cs.dropWhile Char.isDigit with
  | c1 :: c2 :: r =>
    if c1 = 'д' ∧ c2 = ' ' then
      match parseNatChars ds, parseHMS r with
      | some d, some (h, m, sec) => some (d, h, m, sec)
      | _, _ => none
    else hmsOnly cs
  | _ => hmsOnly cs

/-- Models one attempt of the Python pattern `^KEY\s*:\s*(.+)$` (multiline) at a
line start: the literal key, then optional whitespace, a colon, optional
whitespace, and a nonempty captured run of non-newline characters; the
greedy-with-backtracking `\s*(.+)$` tail is rendered deterministically. -/
def matchKeyAt (key cs : List Char) : Option (List Char) :=
  if key.isPrefixOf cs then
    match (cs.drop key.length).dropWhile isWs with
    | c :: tail =>
      if c = ':' then
        let r := tail.dropWhile isWs
        if r ≠ [] then some (r.takeWhile (fun ch => ch != '\n'))
        else
          match ((tail.takeWhile isWs).filter (fun ch => ch != '\n')).getLast? with
          | some ch => some [ch]
          | none => none
      else none
    | [] => none
  else none

/-- The scan of `re.search(..., re.MULTILINE)` over successive line starts.
The fuel argument only drives termination; `kvGroup` supplies enough fuel,
since every recursive call drops at least one character. -/
def searchKVAux (key : List Char) : ℕ → List Char → Option (List Char)
  | 0, _ => none
  | f + 1, cs =>
    match matchKeyAt key cs with
    | some g => some g
    | none =>
      match cs.dropWhile (fun ch => ch != '\n') with
      | [] => none
      | _ :: rest => searchKVAux key f rest

/-- Captured group of `re.search(r"^KEY\s*:\s*(.+)$", content, re.MULTILINE)`. -/
def kvGroup (key content : String) : Option String :=
  (searchKVAux key.data (content.data.length + 1) content.data).map String.mk

/-- Multiplier attached to a cache-size unit suffix (case-insensitive `K`, `M`,
`G`), as in providers._parse_cache_size. -/
def suffixMult (c : Char) : Option ℕ :=
  if c = 'K' ∨ c = 'k' then some 1024
  else if c = 'M' ∨ c = 'm' then some (1024 ^ 2)
  else if c = 'G' ∨ c = 'g' then some (1024 ^ 3)
  else none

/-- providers._parse_cache_size: match `^(\d+(?:\.\d+)?)([KMG])$` (ignorecase)
on the stripped text and return `int(float(number) * multiplier)`.  The float
arithmetic is modelled exactly: `int((i + f/10^L) * mult)` for a nonnegative
value is the natural-number quotient `(i * 10^L + f) * mult / 10^L`. -/
def _parse_cache_size (text : String) : Option ℕ :=
  let cs := pyStrip text.data
  let ds := cs.takeWhile Char.isDigit
  if ds = [] then none
  else
    match cs.dropWhile Char.isDigit with
    | c :: rtail =>
      if c = '.' then
        let fs := rtail.takeWhile Char.isDigit
        if fs = [] then none
        else
          match rtail.dropWhile Char.isDigit with
          | [c2] =>
            (suffixMult c2).map fun mult =>
              (digitsToNat ds * 10 ^ fs.length + digitsToNat fs) * mult / 10 ^ fs.length
          | _ => none
      else
        match rtail with
        | [] => (suffixMult c).map fun mult => digitsToNat ds * mult
        | _ => none
    | [] => none

/-- A dynamically-typed value stored in a collected record: a string (also the
sentinel), an integer, a rounded float, or a list of strings. -/
inductive V where
  | s (x : String)
  | i (n : ℤ)
  | q (x : ℚ)
  | l (xs : List String)
deriving DecidableEq

/-- The `os` sub-record of get_system_info. -/
structure OsOut where
  name : String
  release : String
  version : String
deriving DecidableEq

/-- The `memory` sub-record of get_system_info. -/
structure MemOut where
  total_bytes : V
  available_bytes : V
  total_human : String
  available_human : String
deriving DecidableEq

/-- The record returned by get_system_info. -/
structure SystemRecord where
  os : OsOut
  hostname : String
  uptime_seconds : V
  uptime_human : String
  memory : MemOut
deriving DecidableEq

/-- The `frequency_mhz` sub-record of get_cpu_info. -/
structure FreqOut where
  current : V
  min : V
  max : V
deriving DecidableEq

/-- The `cache` sub-record of get_cpu_info. -/
structure CacheOut where
  L1 : String
  L2 : String
  L3 : String
deriving DecidableEq

/-- The record returned by get_cpu_info. -/
structure CpuRecord where
  brand : String
  architecture : String
  physical_cores : V
  logical_processors : V
  frequency_mhz : FreqOut
  usage_percent : V
  features : V
  cache : CacheOut
deriving DecidableEq

/-- The top-level snapshot assembled in main.py. -/
structure Snapshot where
  cpu : CpuRecord
  system : SystemRecord
deriving DecidableEq

/-- Result of `psutil.virtual_memory()`: `pynone` is the falsy fallback, and an
object carries its `total` / `available` attributes, either of which may be
absent (the code itself tests `hasattr(mem_info, "total")`, so attribute
absence is part of its model of the probe). -/
inductive MemVal where
  | pynone
  | obj (total : Option ℤ) (available : Option ℤ)
deriving DecidableEq

/-- Result of `psutil.boot_time()` after `safe_call`: `pynone` is the fallback,
`num` a numeric value, `nonnum` any non-numeric value (both of the latter two
are what `isinstance(boot_time, (int, float))` discriminates). -/
inductive BootVal where
  | pynone
  | num (x : ℚ)
  | nonnum
deriving DecidableEq

/-- Result of `psutil.cpu_freq()` when an object is returned: the three fields
may individually be `None`. -/
structure FreqVal where
  current : Option ℚ
  min : Option ℚ
  max : Option ℚ
deriving DecidableEq

/-- One `index*` entry under the cache topology directory: existence of the
`level` and `size` files and the outcome of reading each. -/
structure CacheEntry where
  levelExists : Bool
  sizeExists : Bool
  levelRead : Except Unit String
  sizeRead : Except Unit String

/-- A probe environment: the outcome of every external call made by the
collectors.  Calls that can raise are `Except Unit` valued.  The platform
identity calls (`platform.uname()` and the `platform.system/release/version`
fallbacks) are modelled as total string probes whose failure mode is the empty
string, which is their documented behaviour; `time.time()` is the process
clock `now`; `Path.exists` returns a boolean and `Path.glob` a list. -/
structure Env where
  processor : Except Unit String
  unameProcessor : String
  unameSystem : String
  unameRelease : String
  unameVersion : String
  platformSystem : String
  platformRelease : String
  platformVersion : String
  machine : Except Unit String
  physCount : Except Unit (Option ℤ)
  logCount : Except Unit (Option ℤ)
  cpuFreq : Except Unit (Option FreqVal)
  cpuPercent : Except Unit (Option ℚ)
  hostname : Except Unit String
  bootTime : Except Unit BootVal
  now : ℚ
  virtualMemory : Except Unit MemVal
  cpuinfoExists : Bool
  cpuinfoRead : Except Unit String
  cacheDirExists : Bool
  cacheEntries : List CacheEntry

/-- The fixed generic-token set GENERIC_CPU_NAMES of providers.py. -/
def GENERIC_CPU_NAMES : List String := ["x86_64", "amd64", "arm64", "aarch64", "i386", "i686"]

/-- The `platform.processor() or platform.uname().processor` probe inside the
`try` of providers._cpu_brand; an exception yields the empty string. -/
def brandName (env : Env) : String :=
  match env.processor with
  | .ok p => if p = "" then env.unameProcessor else p
  | .error _ => ""

/-- providers._cpu_brand. -/
def _cpu_brand (env : Env) : String :=
  let name := brandName env
  if name ≠ "" ∧ ¬ GENERIC_CPU_NAMES.contains (pyLowerS (pyStripS name)) = true then name
  else if env.cpuinfoExists then
    match env.cpuinfoRead with
    | .ok content =>
      match kvGroup "model name" content with
      | some g => pyStripS g
      | none => UNKNOWN
    | .error _ => UNKNOWN
  else UNKNOWN

/-- providers._cpu_architecture. -/
def _cpu_architecture (env : Env) : String :=
  safe_call (Except.map (fun m => pyOr m UNKNOWN) env.machine) UNKNOWN

/-- providers._cpu_count: sentinel unless the wrapped call returns an integer. -/
def _cpu_count (r : Except Unit (Option ℤ)) : V :=
  match safe_call r none with
  | some n => .i n
  | none => .s UNKNOWN

/-- providers._cpu_frequency. -/
def _cpu_frequency (env : Env) : FreqOut :=
  match safe_call env.cpuFreq none with
  | none => ⟨.s UNKNOWN, .s UNKNOWN, .s UNKNOWN⟩
  | some f =>
    ⟨ match f.current with
      | some c => .q (pyRound c 2)
      | none => .s UNKNOWN,
      match f.min with
      | some c => .q (pyRound c 2)
      | none => .s UNKNOWN,
      match f.max with
      | some c => .q (pyRound c 2)
      | none => .s UNKNOWN ⟩

/-- providers._cpu_usage. -/
def _cpu_usage (env : Env) : V :=
  match safe_call env.cpuPercent none with
  | some v => .q (pyRound v 1)
  | none => .s UNKNOWN

/-- The token list built by providers._cpu_features from a matched group:
`[item.strip() for item in group.split() if item.strip()]`. -/
def featureTokens (g : String) : List String :=
  (pySplitWs g).filterMap fun item =>
    let t := pyStripS item
    if t ≠ "" then some t else none

/-- providers._cpu_features. -/
def _cpu_features (env : Env) : V :=
  if env.cpuinfoExists then
    match env.cpuinfoRead with
    | .ok content =>
      let m :=
        match kvGroup "flags" content with
        | some g => some g
        | none => kvGroup "Features" content
      match m with
      | some g =>
        let features := featureTokens g
        if features ≠ [] then .l features else .s UNKNOWN
      | none => .s UNKNOWN
    | .error _ => .s UNKNOWN
  else .s UNKNOWN

/-- Lookup in the association-list model of the Python dicts of
providers._cpu_cache_sizes. -/
def getKey (d : List (String × ℕ × String)) (k : String) : Option (ℕ × String) :=
  match d with
  | [] => none
  | (k1, v) :: rest => if k1 = k then some v else getKey rest k

/-- Update in the association-list model of the Python dicts. -/
def setKey (d : List (String × ℕ × String)) (k : String) (v : ℕ × String) :
    List (String × ℕ × String) :=
  match d with
  | [] => [(k, v)]
  | (k1, v1) :: rest => if k1 = k then (k, v) :: rest else (k1, v1) :: setKey rest k v

/-- Processing of one cache index entry: `None` when the loop body `continue`s
(missing files, read failure, unparsable size), otherwise the level key, byte
count and stripped size label. -/
def entryObs (e : CacheEntry) : Option (String × ℕ × String) :=
  if e.levelExists && e.sizeExists then
    match e.levelRead, e.sizeRead with
    | .ok lvlRaw, .ok szRaw =>
      let sizeText := pyStripS szRaw
      match _parse_cache_size sizeText with
      | some b => some ("L" ++ pyStripS lvlRaw, b, sizeText)
      | none => none
    | _, _ => none
  else none

/-- The loop of providers._cpu_cache_sizes over the glob-enumerated entries:
`best_sizes`/`best_labels` are updated together, so they are one dict here. -/
def cacheFold (d : List (String × ℕ × String)) : List CacheEntry → List (String × ℕ × String)
  | [] => d
  | e :: es =>
    match entryObs e with
    | none => cacheFold d es
    | some (key, b, label) =>
      match getKey d key with
      | none => cacheFold (setKey d key (b, label)) es
      | some (b0, _) => if b > b0 then cacheFold (setKey d key (b, label)) es else cacheFold d es

/-- providers._cpu_cache_sizes. -/
def _cpu_cache_sizes (env : Env) : CacheOut :=
  if env.cacheDirExists then
    let d := cacheFold [] env.cacheEntries
    ⟨ (getKey d "L1").elim UNKNOWN (fun v => v.2),
      (getKey d "L2").elim UNKNOWN (fun v => v.2),
      (getKey d "L3").elim UNKNOWN (fun v => v.2) ⟩
  else ⟨UNKNOWN, UNKNOWN, UNKNOWN⟩

/-- providers.get_cpu_info.  Every probe it issues is guarded (safe_call or
try/except in the source), so the embedding always returns `.ok`. -/
def get_cpu_info (env : Env) : Except Unit CpuRecord :=
  .ok
    { brand := _cpu_brand env
      architecture := _cpu_architecture env
      physical_cores := _cpu_count env.physCount
      logical_processors := _cpu_count env.logCount
      frequency_mhz := _cpu_frequency env
      usage_percent := _cpu_usage env
      features := _cpu_features env
      cache := _cpu_cache_sizes env }

/-- The sentinel memory quadruple. -/
def memNA : MemOut := ⟨.s UNKNOWN, .s UNKNOWN, UNKNOWN, UNKNOWN⟩

/-- providers.get_system_info.  The only way it can propagate an exception is
the unguarded `mem_info.available` attribute access: the source checks
`hasattr(mem_info, "total")` but then reads `available` unconditionally, so a
truthy result exposing `total` without `available` raises (`.error ()`). -/
def get_system_info (env : Env) : Except Unit SystemRecord :=
  let os : OsOut :=
    ⟨ pyOr env.unameSystem (pyOr env.platformSystem UNKNOWN),
      pyOr env.unameRelease (pyOr env.platformRelease UNKNOWN),
      pyOr env.unameVersion (pyOr env.platformVersion UNKNOWN) ⟩
  let hostname := safe_call env.hostname UNKNOWN
  let up : V × String :=
    match safe_call env.bootTime .pynone with
    | .num bt =>
      let u : ℤ := max 0 (pyTrunc (env.now - bt))
      (.i u, format_duration (.num (u : ℚ)))
    | _ => (.s UNKNOWN, UNKNOWN)
  match safe_call env.virtualMemory .pynone with
  | .obj (some t) av =>
    match av with
    | some a =>
      .ok ⟨os, hostname, up.1, up.2,
        ⟨.i t, .i a, format_bytes (.num (t : ℚ)), format_bytes (.num (a : ℚ))⟩⟩
    | none => .error ()
  | _ => .ok ⟨os, hostname, up.1, up.2, memNA⟩

/-- The snapshot assembly of main.py:
`data = {"cpu": get_cpu_info(), "system": get_system_info()}`. -/
def collectSnapshot (env : Env) : Except Unit Snapshot := do
  let c ← get_cpu_info env
  let s ← get_system_info env
  return ⟨c, s⟩

/-- Name of the unit selected after `k` divisions by 1024 in format_bytes. -/
def unitName (k : ℕ) : String := fbUnits.getD k "PB"

/-- Largest-so-far selection step used to describe the cache loop: keep the
incumbent unless the new byte count is strictly larger. -/
def fmStep (acc : Option (ℕ × String)) (p : ℕ × String) : Option (ℕ × String) :=
  match acc with
  | none => some p
  | some q => if p.1 > q.1 then some p else some q

/-- The (byte count, label) observations a list of cache entries contributes
at level key `key`, in enumeration order. -/
def obsAt (key : String) (es : List CacheEntry) : List (ℕ × String) :=
  es.filterMap fun e => (entryObs e).bind fun o => if o.1 = key then some o.2 else none

/-- Field selection on the cache record by level key. -/
def cacheLabel (c : CacheOut) (k : String) : String :=
  if k = "L1" then c.L1 else if k = "L2" then c.L2 else if k = "L3" then c.L3 else UNKNOWN

/-- The worst-case probe environment: every fallible call raises, every
identity string is empty, no pseudo-file or cache directory exists. -/
def envFail : Env :=
  { processor := .error ()
    unameProcessor := ""
    unameSystem := ""
    unameRelease := ""
    unameVersion := ""
    platformSystem := ""
    platformRelease := ""
    platformVersion := ""
    machine := .error ()
    physCount := .error ()
    logCount := .error ()
    cpuFreq := .error ()
    cpuPercent := .error ()
    hostname := .error ()
    bootTime := .error ()
    now := 0
    virtualMemory := .error ()
    cpuinfoExists := false
    cpuinfoRead := .error ()
    cacheDirExists := false
    cacheEntries := [] }

/-- The fully sentinel CPU record. -/
def cpuNA : CpuRecord :=
  ⟨UNKNOWN, UNKNOWN, .s UNKNOWN, .s UNKNOWN, ⟨.s UNKNOWN, .s UNKNOWN, .s UNKNOWN⟩,
    .s UNKNOWN, .s UNKNOWN, ⟨UNKNOWN, UNKNOWN, UNKNOWN⟩⟩

/-- The fully sentinel system record. -/
def sysNA : SystemRecord :=
  ⟨⟨UNKNOWN, UNKNOWN, UNKNOWN⟩, UNKNOWN, .s UNKNOWN, UNKNOWN, memNA⟩

/-- Environment whose memory probe returns a truthy object exposing `total`
but not `available` (counterexample input for claim C1). -/
def envMemNoAvail : Env := { envFail with virtualMemory := .ok (.obj (some 0) none) }

/-- A second such environment, with a different `total` figure
(counterexample input for claim C2). -/
def envMemNoAvail2 : Env := { envFail with virtualMemory := .ok (.obj (some 1) none) }

/-- Environment with both memory figures available. -/
def envMem : Env := { envFail with virtualMemory := .ok (.obj (some 4096) (some 1024)) }

/-- Environment for the brand-resolution example: generic processor token and
a pseudo-file carrying a model name line. -/
def envBrand : Env :=
  { envFail with
    processor := .ok "x86_64"
    cpuinfoExists := true
    cpuinfoRead := .ok "model name : Example CPU X9\n" }

/-- Environment whose pseudo-file has two model name lines. -/
def envBrand2 : Env :=
  { envFail with
    processor := .ok ""
    cpuinfoExists := true
    cpuinfoRead := .ok "model name\t: First CPU\nmodel name\t: Second CPU\n" }

/-- Environment whose pseudo-file has both a flags and a Features line. -/
def envFeat : Env :=
  { envFail with
    cpuinfoExists := true
    cpuinfoRead := .ok "flags\t\t: fpu vme\nFeatures\t: neon\n" }

/-- A cache index entry whose two files exist and read successfully. -/
def okEntry (lvl sz : String) : CacheEntry := ⟨true, true, .ok lvl, .ok sz⟩

/-- Environment with two level-2 cache entries of sizes 256K and 1M. -/
def envCache : Env :=
  { envFail with
    cacheDirExists := true
    cacheEntries := [okEntry "2" "256K", okEntry "2" "1M"] }

/-- Environment with one cache entry on level 4. -/
def envCache4 : Env :=
  { envFail with
    cacheDirExists := true
    cacheEntries := [okEntry "4" "8M"] }

/-- Environment with two level-2 cache entries of equal byte count
(256K = 0.25M) but different labels. -/
def envCacheTie : Env :=
  { envFail with
    cacheDirExists := true
    cacheEntries := [okEntry "2" "256K", okEntry "2" "0.25M"] }

/-- Environment whose cache directory exists but has no entries. -/
def envCacheDir : Env := { envFail with cacheDirExists := true }

/-- A cache index entry reporting level 4. -/
def lvl4Entry : CacheEntry := okEntry "4" "8M"

/-- Environment with a numeric boot time of 0 at clock 61. -/
def envUp : Env := { envFail with bootTime := .ok (.num 0), now := 61 }

/-- The system record collected in `envUp`. -/
def sysUp : SystemRecord :=
  ⟨⟨UNKNOWN, UNKNOWN, UNKNOWN⟩, UNKNOWN,
    .i (max 0 (pyTrunc ((61 : ℚ) - 0))),
    format_duration (.num ((max 0 (pyTrunc ((61 : ℚ) - 0)) : ℤ) : ℚ)),
    memNA⟩

/-- The system record collected in `envMem`. -/
def sysMem : SystemRecord :=
  ⟨⟨UNKNOWN, UNKNOWN, UNKNOWN⟩, UNKNOWN, .s UNKNOWN, UNKNOWN,
    ⟨.i 4096, .i 1024, format_bytes (.num ((4096 : ℤ) : ℚ)),
      format_bytes (.num ((1024 : ℤ) : ℚ))⟩⟩

lemma decDigitsAux_eq (f : ℕ) : ∀ n, n < f → decDigitsAux f n = Nat.digits 10 n := by
  induction f with
  | zero => intro n h; omega
  | succ f ih =>
    intro n h
    by_cases h0 : n = 0
    · subst h0; simp [decDigitsAux]
    · rw [decDigitsAux, if_neg h0,
        Nat.digits_def' (by norm_num : (1 : ℕ) < 10) (Nat.pos_of_ne_zero h0)]
      have hd : n / 10 < n := Nat.div_lt_self (Nat.pos_of_ne_zero h0) (by norm_num)
      rw [ih (n / 10) (by omega)]

lemma decDigits_eq (n : ℕ) : decDigits n = Nat.digits 10 n :=
  decDigitsAux_eq (n + 1) n (Nat.lt_succ_self n)

lemma ofDec_eq (l : List ℕ) : ofDec l = Nat.ofDigits 10 l := by
  induction l with
  | nil => rfl
  | cons d t ih =>
    rw [ofDec, List.foldr_cons, Nat.ofDigits_cons]
    rw [ofDec] at ih
    rw [ih]

lemma mem_decDigits_lt (n d : ℕ) (h : d ∈ decDigits n) : d < 10 := by
  rw [decDigits_eq] at h
  exact Nat.digits_lt_base (by norm_num) h

lemma charVal_digitChar {d : ℕ} (h : d < 10) : charVal (Nat.digitChar d) = d := by
  interval_cases d <;> rfl

lemma isDigit_digitChar {d : ℕ} (h : d < 10) : (Nat.digitChar d).isDigit = true := by
  interval_cases d <;> rfl

lemma natToDec_data (n : ℕ) (h : n ≠ 0) :
    (natToDec n).data = ((decDigits n).map Nat.digitChar).reverse := by
  rw [natToDec, if_neg h]

lemma natToDec_all_digits (n : ℕ) : ∀ c ∈ (natToDec n).data, c.isDigit = true := by
  by_cases h : n = 0
  · subst h
    intro c hc
    rw [natToDec, if_pos rfl] at hc
    have h0 : ("0" : String).data = ['0'] := rfl
    rw [h0, List.mem_singleton] at hc
    subst hc
    rfl
  · rw [natToDec_data n h]
    intro c hc
    rw [List.mem_reverse, List.mem_map] at hc
    obtain ⟨d, hd, rfl⟩ := hc
    exact isDigit_digitChar (mem_decDigits_lt n d hd)

lemma natToDec_ne_nil (n : ℕ) : (natToDec n).data ≠ [] := by
  by_cases h : n = 0
  · subst h
    rw [natToDec, if_pos rfl]
    intro hx
    have h0 : ("0" : String).data = ['0'] := rfl
    rw [h0] at hx
    cases hx
  · rw [natToDec_data n h]
    simp [decDigits_eq, Nat.digits_ne_nil_iff_ne_zero, h]

lemma digitsToNat_natToDec (n : ℕ) : digitsToNat (natToDec n).data = n := by
  by_cases h : n = 0
  · subst h; rfl
  · rw [natToDec_data n h, digitsToNat, List.reverse_reverse, List.map_map]
    have h2 : ∀ d ∈ decDigits n, (charVal ∘ Nat.digitChar) d = id d := fun d hd =>
      charVal_digitChar (mem_decDigits_lt n d hd)
    rw [List.map_congr_left h2, List.map_id, ofDec_eq, decDigits_eq, Nat.ofDigits_digits]

lemma parseNatChars_natToDec (n : ℕ) : parseNatChars (natToDec n).data = some n := by
  rw [parseNatChars, if_neg (natToDec_ne_nil n),
    if_pos (List.all_eq_true.mpr (natToDec_all_digits n)), digitsToNat_natToDec]

lemma pad2_data (n : ℕ) :
    (pad2 n).data = if n < 10 then '0' :: (natToDec n).data else (natToDec n).data := by
  by_cases h : n < 10
  · rw [pad2, if_pos h, if_pos h, String.data_append]
    rfl
  · rw [pad2, if_neg h, if_neg h]

lemma pad2_all_digits (n : ℕ) : ∀ c ∈ (pad2 n).data, c.isDigit = true := by
  rw [pad2_data]
  by_cases h : n < 10
  · rw [if_pos h]
    intro c hc
    rw [List.mem_cons] at hc
    rcases hc with rfl | hc
    · rfl
    · exact natToDec_all_digits n c hc
  · rw [if_neg h]
    exact natToDec_all_digits n

lemma pad2_ne_nil (n : ℕ) : (pad2 n).data ≠ [] := by
  rw [pad2_data]
  by_cases h : n < 10
  · rw [if_pos h]; exact List.cons_ne_nil _ _
  · rw [if_neg h]; exact natToDec_ne_nil n

lemma digitsToNat_cons_zero (cs : List Char) : digitsToNat ('0' :: cs) = digitsToNat cs := by
  rw [digitsToNat, digitsToNat, List.reverse_cons, List.map_append, ofDec_eq, ofDec_eq,
    Nat.ofDigits_append]
  have h0 : List.map charVal ['0'] = [0] := rfl
  rw [h0]
  simp [Nat.ofDigits]

lemma parseNatChars_pad2 (n : ℕ) : parseNatChars (pad2 n).data = some n := by
  by_cases h : n < 10
  · rw [pad2_data, if_pos h, parseNatChars, if_neg (List.cons_ne_nil _ _)]
    rw [if_pos, digitsToNat_cons_zero, digitsToNat_natToDec]
    rw [List.all_eq_true]
    intro c hc
    rw [List.mem_cons] at hc
    rcases hc with rfl | hc
    · rfl
    · exact natToDec_all_digits n c hc
  · rw [pad2_data, if_neg h]
    exact parseNatChars_natToDec n

lemma takeWhileApp {p : Char → Bool} :
    ∀ (xs zs : List Char), (∀ c ∈ xs, p c = true) →
      (∀ c, zs.head? = some c → p c = false) → (xs ++ zs).takeWhile p = xs := by
  intro xs
  induction xs with
  | nil =>
    intro zs _ hz
    cases zs with
    | nil => rfl
    | cons c t =>
      rw [List.nil_append, List.takeWhile_cons, hz c rfl]
      simp
  | cons x xs ih =>
    intro zs hx hz
    rw [List.cons_append, List.takeWhile_cons, hx x (List.mem_cons_self x xs)]
    simp only [if_true]
    rw [ih zs (fun c hc => hx c (List.mem_cons_of_mem x hc)) hz]

lemma dropWhileApp {p : Char → Bool} :
    ∀ (xs zs : List Char), (∀ c ∈ xs, p c = true) →
      (∀ c, zs.head? = some c → p c = false) → (xs ++ zs).dropWhile p = zs := by
  intro xs
  induction xs with
  | nil =>
    intro zs _ hz
    cases zs with
    | nil => rfl
    | cons c t =>
      rw [List.nil_append, List.dropWhile_cons, hz c rfl]
      simp
  | cons x xs ih =>
    intro zs hx hz
    rw [List.cons_append, List.dropWhile_cons, hx x (List.mem_cons_self x xs)]
    simp only [if_true]
    exact ih zs (fun c hc => hx c (List.mem_cons_of_mem x hc)) hz

lemma dropWhile_all_false {p : Char → Bool} (l : List Char)
    (h : ∀ c ∈ l, p c = false) : l.dropWhile p = l := by
  cases l with
  | nil => rfl
  | cons c t =>
    rw [List.dropWhile_cons, h c (List.mem_cons_self c t)]
    simp

lemma pyStrip_eq_self (l : List Char) (h : ∀ c ∈ l, isWs c = false) : pyStrip l = l := by
  rw [pyStrip, dropWhile_all_false l h, dropWhile_all_false l.reverse
    (fun c hc => h c (List.mem_reverse.mp hc)), List.reverse_reverse]

lemma head_cons_not_digit (c : Char) (hc : c.isDigit = false) (t : List Char) :
    ∀ x, (c :: t).head? = some x → x.isDigit = false := by
  intro x hx
  have hxc : x = c := by
    rw [List.head?_cons, Option.some_inj] at hx
    exact hx.symm
  subst hxc
  exact hc

lemma parseHMS_render (h m s : ℕ) :
    parseHMS ((pad2 h).data ++ ':' :: ((pad2 m).data ++ ':' :: (pad2 s).data)) =
      some (h, m, s) := by
  have hz1 : ∀ x, (':' :: ((pad2 m).data ++ ':' :: (pad2 s).data)).head? = some x →
      x.isDigit = false := head_cons_not_digit ':' (by decide) _
  have ht1 := takeWhileApp (pad2 h).data _ (pad2_all_digits h) hz1
  have hd1 := dropWhileApp (pad2 h).data _ (pad2_all_digits h) hz1
  have hz2 : ∀ x, (':' :: (pad2 s).data).head? = some x → x.isDigit = false :=
    head_cons_not_digit ':' (by decide) _
  have ht2 := takeWhileApp (pad2 m).data _ (pad2_all_digits m) hz2
  have hd2 := dropWhileApp (pad2 m).data _ (pad2_all_digits m) hz2
  simp [parseHMS, ht1, hd1, ht2, hd2, parseNatChars_pad2]

lemma parseDuration_render (total : ℕ) :
    parseDuration (durRender total) =
      some (total / 86400, total % 86400 / 3600, total % 86400 % 3600 / 60,
        total % 86400 % 3600 % 60) := by
  by_cases hdy : 0 < total / 86400
  · have hstr : (durRender total).data =
        (natToDec (total / 86400)).data ++
          ('д' :: ' ' :: ((pad2 (total % 86400 / 3600)).data ++
            ':' :: ((pad2 (total % 86400 % 3600 / 60)).data ++
              ':' :: (pad2 (total % 86400 % 3600 % 60)).data))) := by
      rw [durRender]
      simp only [if_pos hdy]
      have hcolon : (":" : String).data = [':'] := rfl
      have hday : ("д " : String).data = ['д', ' '] := rfl
      simp [String.data_append, hcolon, hday, List.append_assoc]
    have hz : ∀ x, (('д' :: ' ' :: ((pad2 (total % 86400 / 3600)).data ++
        ':' :: ((pad2 (total % 86400 % 3600 / 60)).data ++
          ':' :: (pad2 (total % 86400 % 3600 % 60)).data)))).head? = some x →
        x.isDigit = false := head_cons_not_digit 'д' (by decide) _
    have ht := takeWhileApp (natToDec (total / 86400)).data _
      (natToDec_all_digits (total / 86400)) hz
    have hd := dropWhileApp (natToDec (total / 86400)).data _
      (natToDec_all_digits (total / 86400)) hz
    simp [parseDuration, hstr, ht, hd, parseNatChars_natToDec, parseHMS_render]
  · have hstr : (durRender total).data =
        (pad2 (total % 86400 / 3600)).data ++
          ':' :: ((pad2 (total % 86400 % 3600 / 60)).data ++
            ':' :: (pad2 (total % 86400 % 3600 % 60)).data) := by
      rw [durRender]
      simp only [if_neg hdy]
      have hcolon : (":" : String).data = [':'] := rfl
      simp [String.data_append, hcolon, List.append_assoc]
    obtain ⟨cm, tm, hM⟩ :=
      List.exists_cons_of_ne_nil (pad2_ne_nil (total % 86400 % 3600 / 60))
    have hz : ∀ x, (':' :: ((pad2 (total % 86400 % 3600 / 60)).data ++
        ':' :: (pad2 (total % 86400 % 3600 % 60)).data)).head? = some x →
        x.isDigit = false := head_cons_not_digit ':' (by decide) _
    have ht := takeWhileApp (pad2 (total % 86400 / 3600)).data _
      (pad2_all_digits (total % 86400 / 3600)) hz
    have hd := dropWhileApp (pad2 (total % 86400 / 3600)).data _
      (pad2_all_digits (total % 86400 / 3600)) hz
    have hp := parseHMS_render (total % 86400 / 3600) (total % 86400 % 3600 / 60)
      (total % 86400 % 3600 % 60)
    have hdays0 : total / 86400 = 0 := by omega
    rw [hdays0]
    rw [hM] at ht hd hp
    simp only [List.cons_append, List.append_assoc] at ht hd hp
    simp [parseDuration, hstr, hM, ht, hd, hmsOnly, hp]

lemma durRender_head_digit (t : ℕ) :
    ∃ c rest, (durRender t).data = c :: rest ∧ c.isDigit = true := by
  by_cases hdy : 0 < t / 86400
  · obtain ⟨c, rest, hc⟩ := List.exists_cons_of_ne_nil (natToDec_ne_nil (t / 86400))
    refine ⟨c, rest ++ ("д " : String).data ++ (pad2 (t % 86400 / 3600)).data ++
      (":" : String).data ++ (pad2 (t % 86400 % 3600 / 60)).data ++
      (":" : String).data ++ (pad2 (t % 86400 % 3600 % 60)).data, ?_, ?_⟩
    · rw [durRender]
      simp only [if_pos hdy]
      simp [String.data_append, hc, List.append_assoc]
    · exact natToDec_all_digits _ c (hc ▸ List.mem_cons_self c rest)
  · obtain ⟨c, rest, hc⟩ := List.exists_cons_of_ne_nil (pad2_ne_nil (t % 86400 / 3600))
    refine ⟨c, rest ++ (":" : String).data ++ (pad2 (t % 86400 % 3600 / 60)).data ++
      (":" : String).data ++ (pad2 (t % 86400 % 3600 % 60)).data, ?_, ?_⟩
    · rw [durRender]
      simp only [if_neg hdy]
      simp [String.data_append, hc, List.append_assoc]
    · exact pad2_all_digits _ c (hc ▸ List.mem_cons_self c rest)

lemma durRender_ne_unknown (t : ℕ) : durRender t ≠ UNKNOWN := by
  intro h
  obtain ⟨c, rest, hdata, hdig⟩ := durRender_head_digit t
  rw [h] at hdata
  have hU : (UNKNOWN).data = ['N', '/', 'A'] := rfl
  rw [hU] at hdata
  have hcN : c = 'N' := by
    injection hdata with h1 _
    exact h1.symm
  subst hcN
  exact absurd hdig (by decide)

lemma getKey_setKey_self (d : List (String × ℕ × String)) (k : String) (v : ℕ × String) :
    getKey (setKey d k v) k = some v := by
  induction d with
  | nil => simp [getKey, setKey]
  | cons p rest ih =>
    obtain ⟨k1, v1⟩ := p
    by_cases h : k1 = k
    · rw [setKey, if_pos h, getKey, if_pos rfl]
    · rw [setKey, if_neg h, getKey, if_neg h, ih]

lemma getKey_setKey_ne (d : List (String × ℕ × String)) (k k2 : String) (v : ℕ × String)
    (h : k ≠ k2) : getKey (setKey d k v) k2 = getKey d k2 := by
  induction d with
  | nil => simp [getKey, setKey, h]
  | cons p rest ih =>
    obtain ⟨k1, v1⟩ := p
    by_cases h1 : k1 = k
    · subst h1
      rw [setKey, if_pos rfl, getKey, if_neg h, getKey, if_neg h]
    · rw [setKey, if_neg h1, getKey, getKey, ih]

lemma cacheFold_getKey (es : List CacheEntry) :
    ∀ (d : List (String × ℕ × String)) (key : String),
      getKey (cacheFold d es) key = (obsAt key es).foldl fmStep (getKey d key) := by
  induction es with
  | nil => intro d key; rfl
  | cons e t ih =>
    intro d key
    cases ho : entryObs e with
    | none =>
      have hobs : obsAt key (e :: t) = obsAt key t := by
        simp [obsAt, List.filterMap_cons, ho]
      have hfold : cacheFold d (e :: t) = cacheFold d t := by
        simp [cacheFold, ho]
      rw [hobs, hfold]
      exact ih d key
    | some o =>
      obtain ⟨k1, b, label⟩ := o
      by_cases hk : k1 = key
      · subst hk
        have hobs : obsAt k1 (e :: t) = (b, label) :: obsAt k1 t := by
          simp [obsAt, List.filterMap_cons, ho]
        rw [hobs, List.foldl_cons]
        cases hg : getKey d k1 with
        | none =>
          have hfold : cacheFold d (e :: t) = cacheFold (setKey d k1 (b, label)) t := by
            simp [cacheFold, ho, hg]
          have hstep : fmStep none (b, label) = some (b, label) := rfl
          rw [hstep, hfold, ih (setKey d k1 (b, label)) k1, getKey_setKey_self]
        | some q =>
          obtain ⟨b0, l0⟩ := q
          by_cases hb : b > b0
          · have hfold : cacheFold d (e :: t) = cacheFold (setKey d k1 (b, label)) t := by
              simp [cacheFold, ho, hg, hb]
            have hstep : fmStep (some (b0, l0)) (b, label) = some (b, label) := by
              simp [fmStep, hb]
            rw [hstep, hfold, ih (setKey d k1 (b, label)) k1, getKey_setKey_self]
          · have hfold : cacheFold d (e :: t) = cacheFold d t := by
              simp [cacheFold, ho, hg, hb]
            have hstep : fmStep (some (b0, l0)) (b, label) = some (b0, l0) := by
              simp [fmStep, hb]
            rw [hstep, hfold, ih d k1, hg]
      · have hobs : obsAt key (e :: t) = obsAt key t := by
          simp [obsAt, List.filterMap_cons, ho, hk]
        rw [hobs]
        cases hg : getKey d k1 with
        | none =>
          have hfold : cacheFold d (e :: t) = cacheFold (setKey d k1 (b, label)) t := by
            simp [cacheFold, ho, hg]
          rw [hfold, ih (setKey d k1 (b, label)) key,
            getKey_setKey_ne d k1 key (b, label) hk]
        | some q =>
          obtain ⟨b0, l0⟩ := q
          by_cases hb : b > b0
          · have hfold : cacheFold d (e :: t) = cacheFold (setKey d k1 (b, label)) t := by
              simp [cacheFold, ho, hg, hb]
            rw [hfold, ih (setKey d k1 (b, label)) key,
              getKey_setKey_ne d k1 key (b, label) hk]
          · have hfold : cacheFold d (e :: t) = cacheFold d t := by
              simp [cacheFold, ho, hg, hb]
            rw [hfold]
            exact ih d key

lemma foldl_fmStep_some :
    ∀ (l : List (ℕ × String)) (b0 : ℕ) (l0 : String),
      ∃ b lab, l.foldl fmStep (some (b0, l0)) = some (b, lab) ∧
        ((b, lab) = (b0, l0) ∨ (b, lab) ∈ l) ∧ b0 ≤ b ∧ ∀ p ∈ l, p.1 ≤ b := by
  intro l
  induction l with
  | nil =>
    intro b0 l0
    exact ⟨b0, l0, rfl, Or.inl rfl, le_refl _, by simp⟩
  | cons p t ih =>
    intro b0 l0
    obtain ⟨b1, l1⟩ := p
    by_cases hb : b1 > b0
    · have hstep : fmStep (some (b0, l0)) (b1, l1) = some (b1, l1) := by simp [fmStep, hb]
      obtain ⟨b, lab, heq, hmem, hle, hall⟩ := ih b1 l1
      refine ⟨b, lab, ?_, ?_, ?_, ?_⟩
      · rw [List.foldl_cons, hstep]; exact heq
      · rcases hmem with h1 | h1
        · rw [h1]; exact Or.inr (List.mem_cons_self _ _)
        · exact Or.inr (List.mem_cons_of_mem _ h1)
      · omega
      · intro q hq
        rcases List.mem_cons.mp hq with rfl | hq
        · exact hle
        · exact hall q hq
    · have hstep : fmStep (some (b0, l0)) (b1, l1) = some (b0, l0) := by simp [fmStep, hb]
      obtain ⟨b, lab, heq, hmem, hle, hall⟩ := ih b0 l0
      refine ⟨b, lab, ?_, ?_, ?_, ?_⟩
      · rw [List.foldl_cons, hstep]; exact heq
      · rcases hmem with h1 | h1
        · exact Or.inl h1
        · exact Or.inr (List.mem_cons_of_mem _ h1)
      · exact hle
      · intro q hq
        rcases List.mem_cons.mp hq with rfl | hq
        · have hb1 : b1 ≤ b0 := by omega
          exact le_trans hb1 hle
        · exact hall q hq

lemma foldl_fmStep_nonnil (l : List (ℕ × String)) (h : l ≠ []) :
    ∃ b lab, l.foldl fmStep none = some (b, lab) ∧ (b, lab) ∈ l ∧ ∀ p ∈ l, p.1 ≤ b := by
  cases l with
  | nil => exact absurd rfl h
  | cons p t =>
    obtain ⟨b1, l1⟩ := p
    obtain ⟨b, lab, heq, hmem, hle, hall⟩ := foldl_fmStep_some t b1 l1
    refine ⟨b, lab, ?_, ?_, ?_⟩
    · rw [List.foldl_cons]; exact heq
    · rcases hmem with h1 | h1
      · rw [h1]; exact List.mem_cons_self _ _
      · exact List.mem_cons_of_mem _ h1
    · intro q hq
      rcases List.mem_cons.mp hq with rfl | hq
      · exact hle
      · exact hall q hq

lemma foldl_fmStep_keep :
    ∀ (l : List (ℕ × String)) (b0 : ℕ) (l0 : String),
      (∀ p ∈ l, p.1 ≤ b0) → l.foldl fmStep (some (b0, l0)) = some (b0, l0) := by
  intro l
  induction l with
  | nil => intro b0 l0 _; rfl
  | cons p t ih =>
    intro b0 l0 h
    obtain ⟨b1, l1⟩ := p
    have hb : ¬ b1 > b0 := by
      have h1 := h (b1, l1) (List.mem_cons_self _ _)
      exact not_lt.mpr h1
    have hstep : fmStep (some (b0, l0)) (b1, l1) = some (b0, l0) := by simp [fmStep, hb]
    rw [List.foldl_cons, hstep]
    exact ih b0 l0 (fun q hq => h q (List.mem_cons_of_mem _ hq))

lemma obsAt_append (key : String) (es1 es2 : List CacheEntry) :
    obsAt key (es1 ++ es2) = obsAt key es1 ++ obsAt key es2 := by
  simp [obsAt, List.filterMap_append]

lemma isWs_cases (c : Char) (h : isWs c = true) :
    c = ' ' ∨ c = '\t' ∨ c = '\n' ∨ c = '\r' ∨ c = '\x0b' ∨ c = '\x0c' := by
  rw [isWs] at h
  simp only [Bool.or_eq_true, beq_iff_eq] at h
  tauto

lemma isDigit_not_ws (c : Char) (h : c.isDigit = true) : isWs c = false := by
  cases hw : isWs c
  · rfl
  · exfalso
    rcases isWs_cases c hw with rfl | rfl | rfl | rfl | rfl | rfl <;> exact absurd h (by decide)

lemma suffixMult_props (c : Char) (mult : ℕ) (hc : suffixMult c = some mult) :
    c.isDigit = false ∧ isWs c = false ∧ c ≠ '.' := by
  rw [suffixMult] at hc
  by_cases h1 : c = 'K' ∨ c = 'k'
  · rcases h1 with rfl | rfl <;> exact ⟨rfl, rfl, by decide⟩
  · rw [if_neg h1] at hc
    by_cases h2 : c = 'M' ∨ c = 'm'
    · rcases h2 with rfl | rfl <;> exact ⟨rfl, rfl, by decide⟩
    · rw [if_neg h2] at hc
      by_cases h3 : c = 'G' ∨ c = 'g'
      · rcases h3 with rfl | rfl <;> exact ⟨rfl, rfl, by decide⟩
      · rw [if_neg h3] at hc; cases hc

lemma parse_cache_digits_suffix (n : ℕ) (c : Char) (mult : ℕ)
    (hc : suffixMult c = some mult) :
    _parse_cache_size (natToDec n ++ String.mk [c]) = some (n * mult) := by
  obtain ⟨hcd, hcw, hcdot⟩ := suffixMult_props c mult hc
  have hdata : (natToDec n ++ String.mk [c]).data = (natToDec n).data ++ [c] := by
    rw [String.data_append]
  have hstrip : pyStrip ((natToDec n).data ++ [c]) = (natToDec n).data ++ [c] := by
    apply pyStrip_eq_self
    intro x hx
    rcases List.mem_append.mp hx with hx | hx
    · exact isDigit_not_ws x (natToDec_all_digits n x hx)
    · rw [List.mem_singleton] at hx
      subst hx
      exact hcw
  have hz : ∀ x, ([c] : List Char).head? = some x → x.isDigit = false := by
    intro x hx
    have hxc : x = c := by
      rw [List.head?_cons, Option.some_inj] at hx
      exact hx.symm
    subst hxc
    exact hcd
  have ht := takeWhileApp (natToDec n).data [c] (natToDec_all_digits n) hz
  have hd := dropWhileApp (natToDec n).data [c] (natToDec_all_digits n) hz
  simp only [_parse_cache_size, hdata, hstrip, ht, hd]
  rw [if_neg (natToDec_ne_nil n)]
  simp [hcdot, hc, digitsToNat_natToDec]

lemma cacheLabel_eq (env : Env) (key : String) (hdir : env.cacheDirExists = true)
    (hkey : key = "L1" ∨ key = "L2" ∨ key = "L3") :
    cacheLabel (_cpu_cache_sizes env) key =
      (List.foldl fmStep none (obsAt key env.cacheEntries)).elim UNKNOWN (fun v => v.2) := by
  have hd : getKey (cacheFold [] env.cacheEntries) key =
      List.foldl fmStep none (obsAt key env.cacheEntries) :=
    cacheFold_getKey env.cacheEntries [] key
  rcases hkey with rfl | rfl | rfl <;> simp [_cpu_cache_sizes, hdir, cacheLabel, hd]

lemma get_system_info_uptime (env : Env) (s : SystemRecord)
    (h : get_system_info env = .ok s) :
    (s.uptime_seconds, s.uptime_human) =
      (match safe_call env.bootTime .pynone with
       | .num bt =>
         (V.i (max 0 (pyTrunc (env.now - bt))),
           format_duration (.num ((max 0 (pyTrunc (env.now - bt)) : ℤ) : ℚ)))
       | _ => (.s UNKNOWN, UNKNOWN)) := by
  simp only [get_system_info] at h
  cases hb : safe_call env.bootTime .pynone <;> rw [hb] at h <;>
    cases hm : safe_call env.virtualMemory .pynone <;> rw [hm] at h
  case pynone.pynone => rw [← Except.ok.inj h]
  case pynone.obj tot av =>
    cases tot with
    | none => rw [← Except.ok.inj h]
    | some t =>
      cases av with
      | none => exact Except.noConfusion (show Except.error () = Except.ok s from h)
      | some a => rw [← Except.ok.inj h]
  case num.pynone bt => rw [← Except.ok.inj h]
  case num.obj bt tot av =>
    cases tot with
    | none => rw [← Except.ok.inj h]
    | some t =>
      cases av with
      | none => exact Except.noConfusion (show Except.error () = Except.ok s from h)
      | some a => rw [← Except.ok.inj h]
  case nonnum.pynone => rw [← Except.ok.inj h]
  case nonnum.obj tot av =>
    cases tot with
    | none => rw [← Except.ok.inj h]
    | some t =>
      cases av with
      | none => exact Except.noConfusion (show Except.error () = Except.ok s from h)
      | some a => rw [← Except.ok.inj h]

lemma get_system_info_cases (env : Env) :
    (∃ t a, safe_call env.virtualMemory .pynone = .obj (some t) (some a) ∧
      ∃ s, get_system_info env = .ok s ∧
        s.memory = ⟨.i t, .i a, format_bytes (.num (t : ℚ)), format_bytes (.num (a : ℚ))⟩) ∨
    (∃ t, safe_call env.virtualMemory .pynone = .obj (some t) none ∧
      get_system_info env = .error ()) ∨
    ((safe_call env.virtualMemory .pynone = .pynone ∨
        ∃ av, safe_call env.virtualMemory .pynone = .obj none av) ∧
      ∃ s, get_system_info env = .ok s ∧ s.memory = memNA) := by
  cases hm : safe_call env.virtualMemory .pynone with
  | pynone =>
    refine Or.inr (Or.inr ⟨Or.inl rfl, ?_⟩)
    simp only [get_system_info, hm]
    exact ⟨_, rfl, rfl⟩
  | obj tot av =>
    cases tot with
    | none =>
      refine Or.inr (Or.inr ⟨Or.inr ⟨av, rfl⟩, ?_⟩)
      simp only [get_system_info, hm]
      exact ⟨_, rfl, rfl⟩
    | some t =>
      cases av with
      | none =>
        refine Or.inr (Or.inl ⟨t, rfl, ?_⟩)
        simp only [get_system_info, hm]
      | some a =>
        refine Or.inl ⟨t, a, rfl, ?_⟩
        simp only [get_system_info, hm]
        exact ⟨_, rfl, rfl⟩

lemma divPowLt (b : ℚ) (j : ℕ) : b / 1024 ^ j < 1024 ↔ b < 1024 ^ (j + 1) := by
  rw [div_lt_iff₀ (by positivity : (0 : ℚ) < 1024 ^ j), pow_succ,
    mul_comm (1024 : ℚ) (1024 ^ j)]

/-- Claim C9: safe_call returns the wrapped operation's result when it
returns normally, and returns the fallback, never propagating the failure,
whenever the operation raises. -/
theorem c9_safe_call (α : Type) (v d : α) (e : Unit) :
    safe_call (.ok v) d = v ∧ safe_call (.error e) d = d :=
  ⟨rfl, rfl⟩

/-- Claim C5: for a nonnegative number, format_bytes renders the value scaled
by the unit at index `k`, where `k` is characterised by `b < 1024 ^ (k + 1)`
with `k = 0` or `1024 ^ k ≤ b` (the standard largest-unit selection, i.e. the
smallest unit whose scaled value is below 1024); when the unit list is
exhausted (`b ≥ 1024 ^ 5`) the label is PB; negative or non-numeric input
yields the sentinel, and the function is total. -/
theorem c5_format_bytes_units :
    (∀ (b : ℚ) (k : ℕ), 0 ≤ b → k ≤ 4 → b < 1024 ^ (k + 1) → (k = 0 ∨ 1024 ^ k ≤ b) →
        format_bytes (.num b) = fmt2 (b / 1024 ^ k) ++ " " ++ unitName k) ∧
    (∀ b : ℚ, 1024 ^ 5 ≤ b → format_bytes (.num b) = fmt2 (b / 1024 ^ 5) ++ " PB") ∧
    (∀ b : ℚ, b < 0 → format_bytes (.num b) = UNKNOWN) ∧
    format_bytes .nonnum = UNKNOWN := by
  have hlow : ∀ (b : ℚ) (j : ℕ), 1024 ^ (j + 1) ≤ b → ¬ b / 1024 ^ j < 1024 := by
    intro b j h
    rw [divPowLt]
    exact not_lt.mpr h
  refine ⟨?_, ?_, ?_, rfl⟩
  · intro b k hb hk h1 h2
    have hb0 : ¬ b < 0 := not_lt.mpr hb
    have e1 : b / 1024 ^ 1 = b / 1024 := by rw [pow_one]
    have e2 : b / 1024 ^ 2 = b / 1024 / 1024 := by rw [div_div]; norm_num
    have e3 : b / 1024 ^ 3 = b / 1024 / 1024 / 1024 := by rw [div_div, div_div]; norm_num
    have e4 : b / 1024 ^ 4 = b / 1024 / 1024 / 1024 / 1024 := by
      rw [div_div, div_div, div_div]; norm_num
    simp only [format_bytes, if_neg hb0, fbUnits]
    interval_cases k
    · have h1' : b < 1024 := by rw [pow_one] at h1; exact h1
      rw [fbLoop, if_pos h1']
      norm_num [unitName, fbUnits]
    · rcases h2 with h2 | h2
      · exact absurd h2 one_ne_zero
      have hn0 : ¬ b < 1024 := by rw [pow_one] at h2; exact not_lt.mpr h2
      have hlt : b / 1024 < 1024 := by
        have hx := (divPowLt b 1).mpr h1
        rw [e1] at hx
        exact hx
      rw [fbLoop, if_neg hn0, fbLoop, if_pos hlt]
      norm_num [unitName, fbUnits]
    · rcases h2 with h2 | h2
      · exact absurd h2 (by norm_num)
      have hn0 : ¬ b < 1024 := not_lt.mpr (le_trans (by norm_num) h2)
      have hn1 : ¬ b / 1024 < 1024 := by
        have hx := hlow b 1 h2
        rw [e1] at hx
        exact hx
      have hlt : b / 1024 / 1024 < 1024 := by
        have hx := (divPowLt b 2).mpr h1
        rw [e2] at hx
        exact hx
      rw [fbLoop, if_neg hn0, fbLoop, if_neg hn1, fbLoop, if_pos hlt]
      rw [div_div]
      norm_num [unitName, fbUnits]
    · rcases h2 with h2 | h2
      · exact absurd h2 (by norm_num)
      have hn0 : ¬ b < 1024 := not_lt.mpr (le_trans (by norm_num) h2)
      have hn1 : ¬ b / 1024 < 1024 := by
        have hx := hlow b 1 (le_trans (by norm_num) h2)
        rw [e1] at hx
        exact hx
      have hn2 : ¬ b / 1024 / 1024 < 1024 := by
        have hx := hlow b 2 h2
        rw [e2] at hx
        exact hx
      have hlt : b / 1024 / 1024 / 1024 < 1024 := by
        have hx := (divPowLt b 3).mpr h1
        rw [e3] at hx
        exact hx
      rw [fbLoop, if_neg hn0, fbLoop, if_neg hn1, fbLoop, if_neg hn2, fbLoop, if_pos hlt]
      rw [div_div, div_div]
      norm_num [unitName, fbUnits]
    · rcases h2 with h2 | h2
      · exact absurd h2 (by norm_num)
      have hn0 : ¬ b < 1024 := not_lt.mpr (le_trans (by norm_num) h2)
      have hn1 : ¬ b / 1024 < 1024 := by
        have hx := hlow b 1 (le_trans (by norm_num) h2)
        rw [e1] at hx
        exact hx
      have hn2 : ¬ b / 1024 / 1024 < 1024 := by
        have hx := hlow b 2 (le_trans (by norm_num) h2)
        rw [e2] at hx
        exact hx
      have hn3 : ¬ b / 1024 / 1024 / 1024 < 1024 := by
        have hx := hlow b 3 h2
        rw [e3] at hx
        exact hx
      have hlt : b / 1024 / 1024 / 1024 / 1024 < 1024 := by
        have hx := (divPowLt b 4).mpr h1
        rw [e4] at hx
        exact hx
      rw [fbLoop, if_neg hn0, fbLoop, if_neg hn1, fbLoop, if_neg hn2, fbLoop, if_neg hn3,
        fbLoop, if_pos hlt]
      rw [div_div, div_div, div_div]
      norm_num [unitName, fbUnits]
  · intro b hPB
    have e1 : b / 1024 ^ 1 = b / 1024 := by rw [pow_one]
    have e2 : b / 1024 ^ 2 = b / 1024 / 1024 := by rw [div_div]; norm_num
    have e3 : b / 1024 ^ 3 = b / 1024 / 1024 / 1024 := by rw [div_div, div_div]; norm_num
    have e4 : b / 1024 ^ 4 = b / 1024 / 1024 / 1024 / 1024 := by
      rw [div_div, div_div, div_div]; norm_num
    have hb0 : ¬ b < 0 := not_lt.mpr (le_trans (by positivity) hPB)
    have hn0 : ¬ b < 1024 := not_lt.mpr (le_trans (by norm_num) hPB)
    have hn1 : ¬ b / 1024 < 1024 := by
      have hx := hlow b 1 (le_trans (by norm_num) hPB)
      rw [e1] at hx
      exact hx
    have hn2 : ¬ b / 1024 / 1024 < 1024 := by
      have hx := hlow b 2 (le_trans (by norm_num) hPB)
      rw [e2] at hx
      exact hx
    have hn3 : ¬ b / 1024 / 1024 / 1024 < 1024 := by
      have hx := hlow b 3 (le_trans (by norm_num) hPB)
      rw [e3] at hx
      exact hx
    have hn4 : ¬ b / 1024 / 1024 / 1024 / 1024 < 1024 := by
      have hx := hlow b 4 hPB
      rw [e4] at hx
      exact hx
    simp only [format_bytes, if_neg hb0, fbUnits]
    rw [fbLoop, if_neg hn0, fbLoop, if_neg hn1, fbLoop, if_neg hn2, fbLoop, if_neg hn3,
      fbLoop, if_neg hn4, fbLoop]
    rw [div_div, div_div, div_div, div_div]
    norm_num
  · intro b hb
    simp only [format_bytes, if_pos hb]

theorem c5_witness :
    format_bytes (.num 1536) = fmt2 (1536 / 1024 ^ 1) ++ " " ++ unitName 1 ∧
    format_bytes (.num (1024 ^ 5)) = fmt2 ((1024 : ℚ) ^ 5 / 1024 ^ 5) ++ " PB" ∧
    format_bytes (.num (-1)) = UNKNOWN := by
  refine ⟨?_, ?_, ?_⟩
  · exact c5_format_bytes_units.1 1536 1 (by norm_num) (by norm_num) (by norm_num)
      (Or.inr (by norm_num))
  · exact c5_format_bytes_units.2.1 (1024 ^ 5) (le_refl _)
  · exact c5_format_bytes_units.2.2.1 (-1) (by norm_num)

/-- Claim C6: format_duration of a nonnegative integer second count renders
days, hours, minutes and seconds by the division/modulo chain, with the day
prefix exactly when days are positive and two-digit zero padding; parsing the
four components back out of the string and recombining them recovers the
input exactly; negative or non-numeric input yields the sentinel. -/
theorem c6_duration_roundtrip :
    (∀ s : ℕ,
        format_duration (.num (s : ℚ)) = durRender s ∧
        durRender s =
          (if 0 < s / 86400 then
            natToDec (s / 86400) ++ "д " ++ pad2 (s % 86400 / 3600) ++ ":" ++
              pad2 (s % 3600 / 60) ++ ":" ++ pad2 (s % 60)
          else
            pad2 (s % 86400 / 3600) ++ ":" ++ pad2 (s % 3600 / 60) ++ ":" ++ pad2 (s % 60)) ∧
        parseDuration (durRender s) =
          some (s / 86400, s % 86400 / 3600, s % 3600 / 60, s % 60) ∧
        s / 86400 * 86400 + s % 86400 / 3600 * 3600 + s % 3600 / 60 * 60 + s % 60 = s) ∧
    (∀ x : ℚ, x < 0 → format_duration (.num x) = UNKNOWN) ∧
    format_duration .nonnum = UNKNOWN := by
  refine ⟨?_, ?_, rfl⟩
  · intro s
    have hmod1 : s % 86400 % 3600 = s % 3600 := Nat.mod_mod_of_dvd s (by norm_num)
    have hmod3 : s % 3600 % 60 = s % 60 := Nat.mod_mod_of_dvd s (by norm_num)
    have hmod2 : s % 86400 % 3600 % 60 = s % 60 := by rw [hmod1, hmod3]
    refine ⟨?_, ?_, ?_, ?_⟩
    · simp only [format_duration]
      rw [if_neg (not_lt.mpr (by positivity : (0 : ℚ) ≤ (s : ℚ)))]
      have htr : pyTrunc (s : ℚ) = (s : ℤ) := by
        rw [pyTrunc, if_neg (not_lt.mpr (by positivity)), Int.floor_natCast]
      rw [htr, Int.toNat_natCast]
    · rw [durRender]
      simp only [hmod1, hmod2, hmod3]
    · rw [parseDuration_render s, hmod1, hmod3]
    · omega
  · intro x hx
    simp only [format_duration]
    rw [if_pos hx]

theorem c6_witness :
    parseDuration (durRender 90061) =
      some (90061 / 86400, 90061 % 86400 / 3600, 90061 % 3600 / 60, 90061 % 60) ∧
    format_duration (.num (-1 : ℚ)) = UNKNOWN :=
  ⟨(c6_duration_roundtrip.1 90061).2.2.1, c6_duration_roundtrip.2.1 (-1) (by norm_num)⟩

/-- Claim C7: in every successfully collected system record, if the boot-time
probe returned a number then uptime_seconds is `max 0` of the truncated clock
difference and uptime_human is format_duration of it; if the probe failed or
returned a non-number both fields are the sentinel; and the two fields are
sentinel together or populated together, never one without the other. -/
theorem c7_uptime_pair :
    ∀ (env : Env) (s : SystemRecord), get_system_info env = .ok s →
      (∀ q : ℚ, safe_call env.bootTime .pynone = .num q →
        s.uptime_seconds = .i (max 0 (pyTrunc (env.now - q))) ∧
        s.uptime_human =
          format_duration (.num ((max 0 (pyTrunc (env.now - q)) : ℤ) : ℚ))) ∧
      ((safe_call env.bootTime .pynone = .pynone ∨
          safe_call env.bootTime .pynone = .nonnum) →
        s.uptime_seconds = .s UNKNOWN ∧ s.uptime_human = UNKNOWN) ∧
      (s.uptime_seconds = .s UNKNOWN ↔ s.uptime_human = UNKNOWN) := by
  intro env s hs
  have hup := get_system_info_uptime env s hs
  cases hb : safe_call env.bootTime .pynone with
  | num q =>
    rw [hb] at hup
    have h1 : s.uptime_seconds = .i (max 0 (pyTrunc (env.now - q))) := congrArg Prod.fst hup
    have h2 : s.uptime_human =
        format_duration (.num ((max 0 (pyTrunc (env.now - q)) : ℤ) : ℚ)) :=
      congrArg Prod.snd hup
    refine ⟨?_, ?_, ?_⟩
    · intro q2 hq2
      injection hq2 with hq2
      subst hq2
      exact ⟨h1, h2⟩
    · intro hcontra
      rcases hcontra with h | h <;> cases h
    · have hne1 : s.uptime_seconds ≠ .s UNKNOWN := by
        rw [h1]
        intro hx
        cases hx
      have hne2 : s.uptime_human ≠ UNKNOWN := by
        rw [h2]
        have hnn : ¬ ((max 0 (pyTrunc (env.now - q)) : ℤ) : ℚ) < 0 := by
          apply not_lt.mpr
          have h0 : (0 : ℤ) ≤ max 0 (pyTrunc (env.now - q)) := le_max_left 0 _
          exact_mod_cast h0
        simp only [format_duration]
        rw [if_neg hnn]
        exact durRender_ne_unknown _
      exact ⟨fun hx => absurd hx hne1, fun hx => absurd hx hne2⟩
  | pynone =>
    rw [hb] at hup
    have h1 : s.uptime_seconds = .s UNKNOWN := congrArg Prod.fst hup
    have h2 : s.uptime_human = UNKNOWN := congrArg Prod.snd hup
    refine ⟨?_, fun _ => ⟨h1, h2⟩, ?_⟩
    · intro q2 hq2
      cases hq2
    · rw [h1, h2]
      exact ⟨fun _ => rfl, fun _ => rfl⟩
  | nonnum =>
    rw [hb] at hup
    have h1 : s.uptime_seconds = .s UNKNOWN := congrArg Prod.fst hup
    have h2 : s.uptime_human = UNKNOWN := congrArg Prod.snd hup
    refine ⟨?_, fun _ => ⟨h1, h2⟩, ?_⟩
    · intro q2 hq2
      cases hq2
    · rw [h1, h2]
      exact ⟨fun _ => rfl, fun _ => rfl⟩

theorem c7_witness :
    get_system_info envUp = .ok sysUp ∧
    sysUp.uptime_seconds = .i (max 0 (pyTrunc (envUp.now - 0))) ∧
    sysUp.uptime_human =
      format_duration (.num ((max 0 (pyTrunc (envUp.now - 0)) : ℤ) : ℚ)) := by
  refine ⟨rfl, ?_⟩
  exact (c7_uptime_pair envUp sysUp rfl).1 0 rfl

/-- Claim C1 counterexample: a probe environment in which the memory probe
returns a (truthy) object exposing `total` but not `available` makes
get_system_info propagate the attribute error instead of returning, so the
collectors are not non-raising over arbitrary probe data. -/
theorem c1_counterexample : get_system_info envMemNoAvail = .error () := rfl

/-- Claim C1 (amended): get_cpu_info never raises; get_system_info never
raises provided no truthy memory result exposes `total` without `available`;
and in the worst-case environment where every probe fails the snapshot has
every leaf equal to the sentinel with all structural keys present. -/
theorem c1_collectors_nonraising_amended :
    (∀ env : Env, ∃ c, get_cpu_info env = .ok c) ∧
    (∀ env : Env, (∀ t : ℤ, safe_call env.virtualMemory .pynone ≠ .obj (some t) none) →
      ∃ s, get_system_info env = .ok s) ∧
    get_cpu_info envFail = .ok cpuNA ∧
    get_system_info envFail = .ok sysNA ∧
    collectSnapshot envFail = .ok ⟨cpuNA, sysNA⟩ := by
  refine ⟨fun env => ⟨_, rfl⟩, ?_, rfl, rfl, rfl⟩
  intro env h
  rcases get_system_info_cases env with ⟨t, a, hm, s, hs, _⟩ | ⟨t, hm, hs⟩ | ⟨hm, s, hs, _⟩
  · exact ⟨s, hs⟩
  · exact absurd hm (h t)
  · exact ⟨s, hs⟩

theorem c1_witness : get_system_info envFail = .ok sysNA := by
  obtain ⟨s, hs⟩ := c1_collectors_nonraising_amended.2.1 envFail
    (fun t hcontra => MemVal.noConfusion hcontra)
  have h0 : get_system_info envFail = .ok sysNA := rfl
  rw [h0] at hs
  exact h0

/-- Claim C2 counterexample: a memory probe result that exposes `total` but
not `available` (so not both figures) makes get_system_info raise rather than
leave the four memory fields sentinel. -/
theorem c2_counterexample : get_system_info envMemNoAvail2 = .error () := rfl

/-- Claim C2 (amended): if the memory probe yields a truthy object exposing
both figures, the four memory fields are set together from them with the
human forms derived by format_bytes; if the probe fails, is falsy, or does
not expose the total figure, all four fields are the sentinel together; and
in every successfully returned record the quadruple is never partially
populated.  (A result exposing `total` but not `available` raises instead:
the source checks `hasattr(mem_info, "total")` only.) -/
theorem c2_memory_quadruple_amended :
    (∀ (env : Env) (t a : ℤ),
        safe_call env.virtualMemory .pynone = .obj (some t) (some a) →
        ∃ s, get_system_info env = .ok s ∧
          s.memory = ⟨.i t, .i a, format_bytes (.num (t : ℚ)), format_bytes (.num (a : ℚ))⟩) ∧
    (∀ env : Env,
        (safe_call env.virtualMemory .pynone = .pynone ∨
          ∃ av, safe_call env.virtualMemory .pynone = .obj none av) →
        ∃ s, get_system_info env = .ok s ∧ s.memory = memNA) ∧
    (∀ (env : Env) (s : SystemRecord), get_system_info env = .ok s →
        s.memory = memNA ∨
        ∃ t a, s.memory =
          ⟨.i t, .i a, format_bytes (.num (t : ℚ)), format_bytes (.num (a : ℚ))⟩) := by
  refine ⟨?_, ?_, ?_⟩
  · intro env t a hm
    rcases get_system_info_cases env with ⟨t2, a2, hm2, s, hs, hsm⟩ | ⟨t2, hm2, hs⟩ |
      ⟨hm2, s, hs, hsm⟩
    · rw [hm] at hm2
      injection hm2 with h1 h2
      injection h1 with h1
      injection h2 with h2
      subst h1
      subst h2
      exact ⟨s, hs, hsm⟩
    · rw [hm] at hm2
      injection hm2 with h1 h2
      cases h2
    · rcases hm2 with hm2 | ⟨av, hm2⟩ <;> rw [hm] at hm2
      · cases hm2
      · injection hm2 with h1 h2
        cases h1
  · intro env hm
    rcases get_system_info_cases env with ⟨t2, a2, hm2, s, hs, hsm⟩ | ⟨t2, hm2, hs⟩ |
      ⟨hm2, s, hs, hsm⟩
    · rcases hm with hm | ⟨av, hm⟩ <;> rw [hm] at hm2
      · cases hm2
      · injection hm2 with h1 h2
        cases h1
    · rcases hm with hm | ⟨av, hm⟩ <;> rw [hm] at hm2
      · cases hm2
      · injection hm2 with h1 h2
        cases h1
    · exact ⟨s, hs, hsm⟩
  · intro env s hs
    rcases get_system_info_cases env with ⟨t2, a2, hm2, s2, hs2, hsm⟩ | ⟨t2, hm2, hs2⟩ |
      ⟨hm2, s2, hs2, hsm⟩
    · rw [hs] at hs2
      rw [← Except.ok.inj hs2] at hsm
      exact Or.inr ⟨t2, a2, hsm⟩
    · rw [hs] at hs2
      cases hs2
    · rw [hs] at hs2
      rw [← Except.ok.inj hs2] at hsm
      exact Or.inl hsm

theorem c2_witness :
    get_system_info envMem = .ok sysMem ∧
    sysMem.memory = ⟨.i 4096, .i 1024, format_bytes (.num ((4096 : ℤ) : ℚ)),
      format_bytes (.num ((1024 : ℤ) : ℚ))⟩ := by
  obtain ⟨s, hs, hsm⟩ := c2_memory_quadruple_amended.1 envMem 4096 1024 rfl
  have hseq : s = sysMem := by
    have h0 : get_system_info envMem = .ok sysMem := rfl
    rw [h0] at hs
    exact (Except.ok.inj hs).symm
  exact ⟨rfl, hseq ▸ hsm⟩

/-- Claim C3: when the processor-name probe yields the empty string or a
generic architecture token (trimmed, lower-cased, member of the fixed set),
the brand falls back to the first `model name` line of the pseudo-file,
returning the captured value trimmed; if the file is absent, unreadable, or
has no such line, the brand is the sentinel; in particular probe value
"x86_64" with a file containing `model name : Example CPU X9` resolves to
"Example CPU X9", and the first of several model name lines wins. -/
theorem c3_brand_resolution :
    (∀ (env : Env) (content g : String),
        (brandName env = "" ∨
          GENERIC_CPU_NAMES.contains (pyLowerS (pyStripS (brandName env))) = true) →
        env.cpuinfoExists = true → env.cpuinfoRead = .ok content →
        kvGroup "model name" content = some g → _cpu_brand env = pyStripS g) ∧
    (∀ env : Env,
        (brandName env = "" ∨
          GENERIC_CPU_NAMES.contains (pyLowerS (pyStripS (brandName env))) = true) →
        (env.cpuinfoExists = false ∨ env.cpuinfoRead = .error () ∨
          (∀ content, env.cpuinfoRead = .ok content →
            kvGroup "model name" content = none)) →
        _cpu_brand env = UNKNOWN) ∧
    _cpu_brand envBrand = "Example CPU X9" ∧
    _cpu_brand envBrand2 = "First CPU" := by
  have hcond : ∀ env : Env,
      (brandName env = "" ∨
        GENERIC_CPU_NAMES.contains (pyLowerS (pyStripS (brandName env))) = true) →
      ¬ (brandName env ≠ "" ∧
        ¬ GENERIC_CPU_NAMES.contains (pyLowerS (pyStripS (brandName env))) = true) := by
    intro env h hcontra
    rcases h with h | h
    · exact hcontra.1 h
    · exact hcontra.2 h
  refine ⟨?_, ?_, by decide, by decide⟩
  · intro env content g hgen hex hread hkv
    simp only [_cpu_brand]
    rw [if_neg (hcond env hgen), if_pos hex, hread]
    simp [hkv]
  · intro env hgen hrest
    rcases hrest with hex | hread | hnone
    · simp only [_cpu_brand]
      rw [if_neg (hcond env hgen), if_neg (by simp [hex])]
    · cases hex2 : env.cpuinfoExists with
      | false =>
        simp only [_cpu_brand]
        rw [if_neg (hcond env hgen), if_neg (by simp [hex2])]
      | true =>
        simp only [_cpu_brand]
        rw [if_neg (hcond env hgen), if_pos hex2, hread]
    · cases hread2 : env.cpuinfoRead with
      | error e =>
        cases hex2 : env.cpuinfoExists with
        | false =>
          simp only [_cpu_brand]
          rw [if_neg (hcond env hgen), if_neg (by simp [hex2])]
        | true =>
          simp only [_cpu_brand]
          rw [if_neg (hcond env hgen), if_pos hex2, hread2]
      | ok content =>
        have hkv := hnone content hread2
        cases hex2 : env.cpuinfoExists with
        | false =>
          simp only [_cpu_brand]
          rw [if_neg (hcond env hgen), if_neg (by simp [hex2])]
        | true =>
          simp only [_cpu_brand]
          rw [if_neg (hcond env hgen), if_pos hex2, hread2]
          simp [hkv]

theorem c3_witness :
    _cpu_brand envBrand = pyStripS "Example CPU X9" ∧ _cpu_brand envFail = UNKNOWN := by
  constructor
  · exact c3_brand_resolution.1 envBrand "model name : Example CPU X9\n" "Example CPU X9"
      (Or.inr (by decide)) rfl rfl (by decide)
  · exact c3_brand_resolution.2.1 envFail (Or.inl rfl) (Or.inl rfl)

lemma cpu_features_eq (env : Env) (content : String) (hex : env.cpuinfoExists = true)
    (hread : env.cpuinfoRead = .ok content) :
    _cpu_features env =
      (match (match kvGroup "flags" content with
              | some g => some g
              | none => kvGroup "Features" content) with
       | some g => if featureTokens g ≠ [] then V.l (featureTokens g) else .s UNKNOWN
       | none => .s UNKNOWN) := by
  simp only [_cpu_features]
  rw [if_pos hex, hread]

lemma cpu_features_noexists (env : Env) (hex : env.cpuinfoExists = false) :
    _cpu_features env = .s UNKNOWN := by
  simp [_cpu_features, hex]

lemma cpu_features_readerr (env : Env) (hex : env.cpuinfoExists = true)
    (hread : env.cpuinfoRead = .error ()) : _cpu_features env = .s UNKNOWN := by
  simp [_cpu_features, hex, hread]

/-- Claim C8: the feature collector searches the pseudo-file first for a
flags line and only when that is absent for a Features line; the matched
value is whitespace-split into tokens; and the result is the sentinel, never
an empty sequence, whenever the file is missing, unreadable, no line matches,
or the split yields no tokens. -/
theorem c8_feature_flags :
    (∀ (env : Env) (content g : String), env.cpuinfoExists = true →
        env.cpuinfoRead = .ok content → kvGroup "flags" content = some g →
        _cpu_features env =
          (if featureTokens g ≠ [] then .l (featureTokens g) else .s UNKNOWN)) ∧
    (∀ (env : Env) (content g : String), env.cpuinfoExists = true →
        env.cpuinfoRead = .ok content → kvGroup "flags" content = none →
        kvGroup "Features" content = some g →
        _cpu_features env =
          (if featureTokens g ≠ [] then .l (featureTokens g) else .s UNKNOWN)) ∧
    (∀ (env : Env) (content : String), env.cpuinfoExists = true →
        env.cpuinfoRead = .ok content → kvGroup "flags" content = none →
        kvGroup "Features" content = none → _cpu_features env = .s UNKNOWN) ∧
    (∀ env : Env, env.cpuinfoExists = false → _cpu_features env = .s UNKNOWN) ∧
    (∀ env : Env, env.cpuinfoRead = .error () → _cpu_features env = .s UNKNOWN) ∧
    (∀ env : Env, _cpu_features env ≠ .l []) ∧
    _cpu_features envFeat = .l ["fpu", "vme"] := by
  refine ⟨?_, ?_, ?_, ?_, ?_, ?_, by decide⟩
  · intro env content g hex hread hkv
    rw [cpu_features_eq env content hex hread]
    rw [show (match kvGroup "flags" content with
        | some g => some g
        | none => kvGroup "Features" content) = some g from by rw [hkv]]
  · intro env content g hex hread hkv1 hkv2
    rw [cpu_features_eq env content hex hread]
    rw [show (match kvGroup "flags" content with
        | some g => some g
        | none => kvGroup "Features" content) = some g from by simp [hkv1, hkv2]]
  · intro env content hex hread hkv1 hkv2
    rw [cpu_features_eq env content hex hread]
    rw [show (match kvGroup "flags" content with
        | some g => some g
        | none => kvGroup "Features" content) = none from by simp [hkv1, hkv2]]
  · intro env hex
    exact cpu_features_noexists env hex
  · intro env hread
    cases hex : env.cpuinfoExists with
    | false => exact cpu_features_noexists env hex
    | true => exact cpu_features_readerr env hex hread
  · intro env hcontra
    cases hex : env.cpuinfoExists with
    | false =>
      rw [cpu_features_noexists env hex] at hcontra
      cases hcontra
    | true =>
      cases hread : env.cpuinfoRead with
      | error e =>
        cases e
        rw [cpu_features_readerr env hex hread] at hcontra
        cases hcontra
      | ok content =>
        rw [cpu_features_eq env content hex hread] at hcontra
        cases hkv : (match kvGroup "flags" content with
            | some g => some g
            | none => kvGroup "Features" content) with
        | none =>
          rw [hkv] at hcontra
          cases hcontra
        | some g =>
          rw [hkv] at hcontra
          have hcontra2 : (if featureTokens g ≠ [] then V.l (featureTokens g)
              else V.s UNKNOWN) = V.l [] := hcontra
          by_cases htok : featureTokens g = []
          · rw [if_neg (by simp [htok] : ¬ featureTokens g ≠ [])] at hcontra2
            cases hcontra2
          · rw [if_pos htok] at hcontra2
            injection hcontra2 with hcontra2
            exact htok hcontra2

theorem c8_witness :
    _cpu_features envFeat =
      (if featureTokens "fpu vme" ≠ [] then .l (featureTokens "fpu vme") else .s UNKNOWN) :=
  c8_feature_flags.1 envFeat "flags\t\t: fpu vme\nFeatures\t: neon\n" "fpu vme" rfl rfl
    (by decide)

/-- Claim C4: a size text of decimal digits followed by a case-insensitive
K/M/G suffix parses to the number times 1024, 1024² or 1024³; for each level
key the returned label is the size text of an enumerated entry whose parsed
byte count is maximal at that level (entries with missing or unreadable files
or unparsable sizes contribute nothing and are not fatal); levels with no
observations are sentinel, and a missing cache directory makes all three
levels sentinel; in particular level-2 entries 256K and 1M give L2 = "1M". -/
theorem c4_cache_selection :
    (∀ n : ℕ,
        _parse_cache_size (natToDec n ++ "K") = some (n * 1024) ∧
        _parse_cache_size (natToDec n ++ "k") = some (n * 1024) ∧
        _parse_cache_size (natToDec n ++ "M") = some (n * 1024 ^ 2) ∧
        _parse_cache_size (natToDec n ++ "m") = some (n * 1024 ^ 2) ∧
        _parse_cache_size (natToDec n ++ "G") = some (n * 1024 ^ 3) ∧
        _parse_cache_size (natToDec n ++ "g") = some (n * 1024 ^ 3)) ∧
    (∀ (env : Env) (key : String), env.cacheDirExists = true →
        (key = "L1" ∨ key = "L2" ∨ key = "L3") →
        (obsAt key env.cacheEntries = [] →
          cacheLabel (_cpu_cache_sizes env) key = UNKNOWN) ∧
        (obsAt key env.cacheEntries ≠ [] →
          ∃ b, (b, cacheLabel (_cpu_cache_sizes env) key) ∈ obsAt key env.cacheEntries ∧
            ∀ p ∈ obsAt key env.cacheEntries, p.1 ≤ b)) ∧
    (∀ env : Env, env.cacheDirExists = false →
        _cpu_cache_sizes env = ⟨UNKNOWN, UNKNOWN, UNKNOWN⟩) ∧
    _cpu_cache_sizes envCache = ⟨UNKNOWN, "1M", UNKNOWN⟩ := by
  refine ⟨?_, ?_, ?_, by decide⟩
  · intro n
    exact ⟨parse_cache_digits_suffix n 'K' 1024 rfl,
      parse_cache_digits_suffix n 'k' 1024 rfl,
      parse_cache_digits_suffix n 'M' (1024 ^ 2) rfl,
      parse_cache_digits_suffix n 'm' (1024 ^ 2) rfl,
      parse_cache_digits_suffix n 'G' (1024 ^ 3) rfl,
      parse_cache_digits_suffix n 'g' (1024 ^ 3) rfl⟩
  · intro env key hdir hkey
    have hlabel := cacheLabel_eq env key hdir hkey
    constructor
    · intro hobs
      rw [hlabel, hobs]
      rfl
    · intro hobs
      obtain ⟨b, lab, heq, hmem, hall⟩ := foldl_fmStep_nonnil (obsAt key env.cacheEntries) hobs
      refine ⟨b, ?_, hall⟩
      rw [hlabel, heq]
      exact hmem
  · intro env h
    simp [_cpu_cache_sizes, h]

theorem c4_witness :
    _parse_cache_size (natToDec 256 ++ "K") = some (256 * 1024) ∧
    cacheLabel (_cpu_cache_sizes envCache4) "L2" = UNKNOWN ∧
    _cpu_cache_sizes envFail = ⟨UNKNOWN, UNKNOWN, UNKNOWN⟩ := by
  refine ⟨(c4_cache_selection.1 256).1, ?_, c4_cache_selection.2.2.1 envFail rfl⟩
  exact (c4_cache_selection.2.1 envCache4 "L2" rfl (Or.inr (Or.inl rfl))).1 (by decide)

/-- Claim C10: the cache record always carries exactly the keys L1, L2, L3
(by construction of its type), each bound to a size label observed at that
level or to the sentinel; an entry whose level key is none of L1, L2, L3
(e.g. level "4") never changes the returned record; and on equal byte counts
the label of the first-enumerated entry is kept, the comparison being
strictly-greater. -/
theorem c10_cache_record :
    (∀ (env : Env) (key : String), (key = "L1" ∨ key = "L2" ∨ key = "L3") →
        cacheLabel (_cpu_cache_sizes env) key = UNKNOWN ∨
          ∃ b, (b, cacheLabel (_cpu_cache_sizes env) key) ∈ obsAt key env.cacheEntries) ∧
    (∀ (env : Env) (e : CacheEntry),
        (∀ k b lab, entryObs e = some (k, b, lab) → k ≠ "L1" ∧ k ≠ "L2" ∧ k ≠ "L3") →
        _cpu_cache_sizes { env with cacheEntries := env.cacheEntries ++ [e] } =
          _cpu_cache_sizes env) ∧
    (∀ (env : Env) (key : String) (b : ℕ) (l1 l2 : String), env.cacheDirExists = true →
        (key = "L1" ∨ key = "L2" ∨ key = "L3") →
        obsAt key env.cacheEntries = [(b, l1), (b, l2)] →
        cacheLabel (_cpu_cache_sizes env) key = l1) := by
  refine ⟨?_, ?_, ?_⟩
  · intro env key hkey
    cases hdir : env.cacheDirExists with
    | false =>
      refine Or.inl ?_
      rcases hkey with rfl | rfl | rfl <;> simp [_cpu_cache_sizes, hdir, cacheLabel]
    | true =>
      have hlabel := cacheLabel_eq env key hdir hkey
      by_cases hobs : obsAt key env.cacheEntries = []
      · refine Or.inl ?_
        rw [hlabel, hobs]
        rfl
      · obtain ⟨b, lab, heq, hmem, _⟩ :=
          foldl_fmStep_nonnil (obsAt key env.cacheEntries) hobs
        refine Or.inr ⟨b, ?_⟩
        rw [hlabel, heq]
        exact hmem
  · intro env e he
    by_cases hdir : env.cacheDirExists = true
    case neg =>
      have hdirF : env.cacheDirExists = false := by
        cases h : env.cacheDirExists
        · rfl
        · exact absurd h hdir
      have hdir2 : ({ env with cacheEntries := env.cacheEntries ++ [e] } : Env).cacheDirExists =
          false := hdirF
      simp [_cpu_cache_sizes, hdirF, hdir2]
    case pos =>
      have hdir2 : ({ env with cacheEntries := env.cacheEntries ++ [e] } : Env).cacheDirExists =
          true := hdir
      have hobs : ∀ key : String, (key = "L1" ∨ key = "L2" ∨ key = "L3") →
          obsAt key (env.cacheEntries ++ [e]) = obsAt key env.cacheEntries := by
        intro key hkey
        rw [obsAt_append]
        have h1 : obsAt key [e] = [] := by
          cases ho : entryObs e with
          | none => simp [obsAt, List.filterMap_cons, ho]
          | some o =>
            obtain ⟨k, b, lab⟩ := o
            have hk := he k b lab ho
            have hkne : k ≠ key := by
              rcases hkey with rfl | rfl | rfl
              · exact hk.1
              · exact hk.2.1
              · exact hk.2.2
            simp [obsAt, List.filterMap_cons, ho, hkne]
        rw [h1, List.append_nil]
      have hgk : ∀ key : String, (key = "L1" ∨ key = "L2" ∨ key = "L3") →
          getKey (cacheFold [] (env.cacheEntries ++ [e])) key =
            getKey (cacheFold [] env.cacheEntries) key := by
        intro key hkey
        have h1 := cacheFold_getKey (env.cacheEntries ++ [e]) [] key
        have h2 := cacheFold_getKey env.cacheEntries [] key
        rw [h1, h2, hobs key hkey]
      simp only [_cpu_cache_sizes]
      rw [if_pos hdir2, if_pos hdir]
      rw [hgk "L1" (Or.inl rfl), hgk "L2" (Or.inr (Or.inl rfl)),
        hgk "L3" (Or.inr (Or.inr rfl))]
  · intro env key b l1 l2 hdir hkey hobs
    rw [cacheLabel_eq env key hdir hkey, hobs]
    have hfold : List.foldl fmStep none [(b, l1), (b, l2)] = some (b, l1) := by
      simp [fmStep]
    rw [hfold]
    rfl

theorem c10_witness :
    _cpu_cache_sizes { envCacheDir with cacheEntries := envCacheDir.cacheEntries ++ [lvl4Entry] } =
      _cpu_cache_sizes envCacheDir ∧
    cacheLabel (_cpu_cache_sizes envCacheTie) "L2" = "256K" := by
  constructor
  · refine c10_cache_record.2.1 envCacheDir lvl4Entry ?_
    intro k b lab h
    rw [show entryObs lvl4Entry = some ("L4", 8 * 1024 ^ 2, "8M") from by decide] at h
    injection h with h1
    injection h1 with hk hrest
    rw [← hk]
    exact ⟨by decide, by decide, by decide⟩
  · exact c10_cache_record.2.2 envCacheTie "L2" 262144 "256K" "0.25M" rfl
      (Or.inr (Or.inl rfl)) (by decide)


end CpuinfoApp
